import Mathlib

/-!
A shallow embedding of the chunk decode pipeline and the resumable parallel
file materializer of src/mycdn.py, with proofs of the specified properties.

Bytes are modelled as natural numbers below 256 inside plain lists; the
external decompression libraries (lzma raw LZMA1, zstandard, ZipFile) are
modelled as parameters, while slicing, struct unpacking, CRC32, dispatch,
truncation, caching and the materializer control flow are embedded concretely.
-/

namespace MyCDN

/-- Resolution of one Python slice endpoint over a sequence of length n:
a negative index counts from the end and is clamped below at 0, a
non-negative index is clamped above at n. -/
def pyIdx (n : Nat) (i : Int) : Nat :=
  if i < 0 then ((n : Int) + i).toNat else min i.toNat n

/-- Python slicing data[a:b] over byte lists, with clamping semantics. -/
def pySlice (l : List Nat) (a b : Int) : List Nat :=
  (l.take (pyIdx l.length b)).drop (pyIdx l.length a)

/-- One shift-and-conditionally-xor step of the reflected CRC32 with
polynomial 0xEDB88320, as computed by binascii.crc32. -/
def crc32Step (c : Nat) : Nat :=
  if c % 2 = 1 then (c / 2) ^^^ 0xEDB88320 else c / 2

/-- Fold one byte into the running CRC32 state (8 bit steps). -/
def crc32Byte (c b : Nat) : Nat :=
  crc32Step^[8] (c ^^^ b % 256)

/-- binascii.crc32 over a byte list (initial value and final xor 0xFFFFFFFF). -/
def crc32 (l : List Nat) : Nat :=
  (l.foldl crc32Byte 0xFFFFFFFF) ^^^ 0xFFFFFFFF

/-- Little-endian unsigned integer value of a byte list. -/
def le32 (b : List Nat) : Nat :=
  b.foldr (fun x acc => x + 256 * acc) 0

/-- struct.unpack of two little-endian uint32 values: requires a buffer of
exactly 8 bytes, raising struct.error otherwise. -/
def unpackII (b : List Nat) : Except String (Nat × Nat) :=
  if b.length = 8 then .ok (le32 (b.take 4), le32 (b.drop 4))
  else .error "struct.error: unpack requires a buffer of 8 bytes"

/-- The byte string b"VZa". -/
def vzMagic : List Nat := [86, 90, 97]

/-- The byte string b"VSZa". -/
def vszMagic : List Nat := [86, 83, 90, 97]

/-- Error text of the VZ-path CRC32 check in get_chunk. -/
def vzCrcError : String := "VZ: CRC32 checksum mismatch for decompressed data"

/-- Error text of the VSZ-path CRC32 check in get_chunk. -/
def vszCrcError : String := "VSZ: CRC32 checksum mismatch for decompressed data"

/-- Error text of lzma raw filter-properties decoding on a buffer that does
not hold exactly the 5 LZMA1 property bytes. -/
def lzmaPropsError : String := "lzma: invalid filter properties size"

/-- The external decompression libraries used by get_chunk, as black boxes:
raw LZMA1 given 5 filter-property bytes, a zstandard decompressor, and the
ZipFile read of the first list entry of a generic archive. Each may fail. -/
structure Decoders where
  lzmaRaw : List Nat → List Nat → Except String (List Nat)
  zstd : List Nat → Except String (List Nat)
  zipFirstEntry : List Nat → Except String (List Nat)

/-- The frame decode block of MyCDNClient.get_chunk (src/mycdn.py lines
71 to 86): dispatch on the magic bytes; on the VZ path decode the filter
properties from data[7:12], unpack checksum and size from data[-10:-2],
decompress data[12:-9], truncate and CRC-check; on the VSZ path unpack from
data[-15:-7], decompress data[8:-15], truncate and CRC-check; otherwise read
the first entry of the frame as a zip archive. -/
def decode (D : Decoders) (data : List Nat) : Except String (List Nat) :=
  if pySlice data 0 3 = vzMagic then
    if (pySlice data 7 12).length ≠ 5 then .error lzmaPropsError
    else
      match unpackII (pySlice data (-10) (-2)) with
      | .error e => .error e
      | .ok (checksum, decompressed_size) =>
        match D.lzmaRaw (pySlice data 7 12) (pySlice data 12 (-9)) with
        | .error e => .error e
        | .ok out =>
          if crc32 (out.take decompressed_size) ≠ checksum then .error vzCrcError
          else .ok (out.take decompressed_size)
  else if pySlice data 0 4 = vszMagic then
    match unpackII (pySlice data (-15) (-7)) with
    | .error e => .error e
    | .ok (checksum, decompressed_size) =>
      match D.zstd (pySlice data 8 (-15)) with
      | .error e => .error e
      | .ok out =>
        if crc32 (out.take decompressed_size) ≠ checksum then .error vszCrcError
        else .ok (out.take decompressed_size)
  else D.zipFirstEntry data

/-- Keys of the per-client chunk cache. -/
abbrev ChunkKey := Nat × Nat

/-- The _chunk_cache mapping, modelled as an association list. -/
abbrev ChunkCache := List (ChunkKey × List Nat)

/-- MyCDNClient.get_chunk (src/mycdn.py lines 66 to 89): consult the
(depot_id, chunk_id) cache; on a miss, fetch and decrypt (modelled by the
fetch parameter), decode, store the plaintext under the key and return it.
An exception raised by decoding propagates and leaves the cache unchanged. -/
def get_chunk (D : Decoders) (fetch : Nat → Nat → List Nat)
    (cache : ChunkCache) (depot_id chunk_id : Nat) :
    Except String (List Nat) × ChunkCache :=
  match cache.lookup (depot_id, chunk_id) with
  | some v => (.ok v, cache)
  | none =>
    match decode D (fetch depot_id chunk_id) with
    | .error e => (.error e, cache)
    | .ok data => (.ok data, ((depot_id, chunk_id), data) :: cache)

/-- One manifest file entry as seen by save_depot_file: its name, its
is_file flag, its declared size, the true byte content its handle serves,
and the expected whole-file sha1 digest (file_mapping.sha_content). -/
structure DepotFile where
  filename : String
  is_file : Bool
  size : Nat
  content : List Nat
  sha_content : List Nat

/-- A read source models the loop iter(lambda: depot_file.read(16384), b'')
run after seeking to a given offset: the bytes it delivers, and a flag set
when the handle raises after delivering them. -/
abbrev ReadSource := Nat → List Nat × Bool

/-- The honest handle: reading from an offset delivers the remaining true
content of the entry and never raises. -/
def goodRead (df : DepotFile) : ReadSource := fun off => (df.content.drop off, false)

/-- Structural helper for the 16 KiB block split, with fuel. -/
def blocksAux : Nat → List Nat → List (List Nat)
  | 0, _ => []
  | _, [] => []
  | fuel + 1, x :: xs => (x :: xs).take 16384 :: blocksAux fuel ((x :: xs).drop 16384)

/-- Split a byte list into the successive 16384-byte blocks produced by the
16 KiB read loops of save_depot_file. -/
def blocks16384 (l : List Nat) : List (List Nat) := blocksAux l.length l

/-- MyCDNClient.download_files.save_depot_file (src/mycdn.py lines 95 to
123), for one entry: if no local file exists, stream the full content into a
fresh file; else if the local size is below the declared size, seek the
handle to the local size and append the rest; else re-hash the local file in
16 KiB blocks and raise on mismatch with the expected digest. The try/except
converts any raise into a recorded failure. Returns the local file state
after the task and whether a failure was recorded. -/
def save_depot_file (hashFn : List Nat → List Nat) (df : DepotFile)
    (rd : ReadSource) (fs : Option (List Nat)) : Option (List Nat) × Bool :=
  match fs with
  | none =>
    let r := rd 0
    (some r.1, r.2)
  | some c =>
    if c.length < df.size then
      let r := rd c.length
      (some (c ++ r.1), r.2)
    else
      if hashFn ((blocks16384 c).flatten) ≠ df.sha_content then (some c, true)
      else (some c, false)

/-- One scheduled unit of download_files: the entry, its handle behaviour,
and the pre-existing local file state at its destination path. -/
structure DownloadTask where
  file : DepotFile
  rd : ReadSource
  fs : Option (List Nat)

/-- MyCDNClient.download_files (src/mycdn.py lines 91 to 140): submit
save_depot_file for every is_file entry; failures are appended to the
lock-guarded errors list. The sequential recursion models one completion
order of the bounded pool (appends are serialized by errors_lock). Returns
the final local file states of the scheduled tasks and the errors list. -/
def download_files (hashFn : List Nat → List Nat) :
    List DownloadTask → List (Option (List Nat)) × List String
  | [] => ([], [])
  | t :: ts =>
    if t.file.is_file then
      let r := save_depot_file hashFn t.file t.rd t.fs
      let rest := download_files hashFn ts
      (r.1 :: rest.1, (if r.2 then [t.file.filename] else []) ++ rest.2)
    else download_files hashFn ts

/-- The success condition at the report boundary of download_files: the
errors list is empty. -/
def reportSuccess (errors : List String) : Bool := errors.isEmpty

/-- A slice endpoint never resolves past the end of the sequence. -/
theorem pyIdx_le (n : Nat) (i : Int) : pyIdx n i ≤ n := by
  unfold pyIdx
  split <;> omega

/-- Resolution of a negative slice endpoint. -/
theorem pyIdx_of_neg {n : Nat} {i : Int} (hi : i < 0) :
    pyIdx n i = ((n : Int) + i).toNat := by
  unfold pyIdx
  rw [if_pos hi]

/-- Resolution of a non-negative slice endpoint. -/
theorem pyIdx_of_nonneg {n : Nat} {i : Int} (hi : 0 ≤ i) :
    pyIdx n i = min i.toNat n := by
  unfold pyIdx
  rw [if_neg (by omega)]

/-- Normal form of a Python slice as drop-then-take. -/
theorem pySlice_normal (l : List Nat) (a b : Int) :
    pySlice l a b =
      (l.drop (pyIdx l.length a)).take (pyIdx l.length b - pyIdx l.length a) := by
  rw [pySlice, List.drop_take]

/-- Length of a Python slice from resolved endpoints. -/
theorem pySlice_length (l : List Nat) (a b : Int) :
    (pySlice l a b).length = pyIdx l.length b - pyIdx l.length a := by
  have hb := pyIdx_le l.length b
  simp only [pySlice, List.length_drop, List.length_take]
  omega

/-- data[0:3] is the 3-byte magic sniff. -/
theorem pySlice_zero_three (l : List Nat) : pySlice l 0 3 = l.take 3 := by
  rw [pySlice_normal, pyIdx_of_nonneg (by norm_num), pyIdx_of_nonneg (by norm_num)]
  simp only [Int.toNat_zero, Int.toNat_ofNat, Nat.zero_min, Nat.sub_zero, List.drop_zero]
  exact List.take_eq_take.mpr (by omega)

/-- data[0:4] is the 4-byte magic sniff. -/
theorem pySlice_zero_four (l : List Nat) : pySlice l 0 4 = l.take 4 := by
  rw [pySlice_normal, pyIdx_of_nonneg (by norm_num), pyIdx_of_nonneg (by norm_num)]
  simp only [Int.toNat_zero, Int.toNat_ofNat, Nat.zero_min, Nat.sub_zero, List.drop_zero]
  exact List.take_eq_take.mpr (by omega)

/-- A frame that passes the VSZ magic test fails the VZ magic test, so the
Python elif order never sends a VSZ frame down the VZ branch. -/
theorem vsz_not_vz {l : List Nat} (h : pySlice l 0 4 = vszMagic) :
    pySlice l 0 3 ≠ vzMagic := by
  have h3 : pySlice l 0 3 = (pySlice l 0 4).take 3 := by
    rw [pySlice_zero_three, pySlice_zero_four, List.take_take]
    norm_num
  rw [h3, h]
  decide

/-- Length of the LZMA1 filter-properties slice data[7:12]. -/
theorem props_slice_length (l : List Nat) :
    (pySlice l 7 12).length = min 12 l.length - min 7 l.length := by
  rw [pySlice_length, pyIdx_of_nonneg (by norm_num), pyIdx_of_nonneg (by norm_num)]
  omega

/-- On a frame of length at least 10, struct.unpack of data[-10:-2] with
format two-little-endian-uint32 succeeds and splits into the VZ checksum
field data[-10:-6] and the VZ size field data[-6:-2]. -/
theorem unpackII_vz (l : List Nat) (h : 10 ≤ l.length) :
    unpackII (pySlice l (-10) (-2)) =
      .ok (le32 (pySlice l (-10) (-6)), le32 (pySlice l (-6) (-2))) := by
  have h10 : pyIdx l.length (-10) = l.length - 10 := by
    rw [pyIdx_of_neg (by norm_num)]; omega
  have h6 : pyIdx l.length (-6) = l.length - 6 := by
    rw [pyIdx_of_neg (by norm_num)]; omega
  have h2 : pyIdx l.length (-2) = l.length - 2 := by
    rw [pyIdx_of_neg (by norm_num)]; omega
  have e1 : pySlice l (-10) (-2) = (l.drop (l.length - 10)).take 8 := by
    rw [pySlice_normal, h10, h2]
    congr 1
    omega
  have e2 : pySlice l (-10) (-6) = (l.drop (l.length - 10)).take 4 := by
    rw [pySlice_normal, h10, h6]
    congr 1
    omega
  have e3 : pySlice l (-6) (-2) = ((l.drop (l.length - 10)).drop 4).take 4 := by
    rw [pySlice_normal, h6, h2, List.drop_drop]
    congr 2 <;> omega
  have hlen8 : ((l.drop (l.length - 10)).take 8).length = 8 := by
    simp only [List.length_take, List.length_drop]
    omega
  rw [e1, unpackII, if_pos hlen8, e2, e3, List.take_take, List.drop_take]
  norm_num

/-- On a frame of length at least 15, struct.unpack of data[-15:-7] with
format two-little-endian-uint32 succeeds and splits into the VSZ checksum
field data[-15:-11] and the VSZ size field data[-11:-7]. -/
theorem unpackII_vsz (l : List Nat) (h : 15 ≤ l.length) :
    unpackII (pySlice l (-15) (-7)) =
      .ok (le32 (pySlice l (-15) (-11)), le32 (pySlice l (-11) (-7))) := by
  have h15 : pyIdx l.length (-15) = l.length - 15 := by
    rw [pyIdx_of_neg (by norm_num)]; omega
  have h11 : pyIdx l.length (-11) = l.length - 11 := by
    rw [pyIdx_of_neg (by norm_num)]; omega
  have h7 : pyIdx l.length (-7) = l.length - 7 := by
    rw [pyIdx_of_neg (by norm_num)]; omega
  have e1 : pySlice l (-15) (-7) = (l.drop (l.length - 15)).take 8 := by
    rw [pySlice_normal, h15, h7]
    congr 1
    omega
  have e2 : pySlice l (-15) (-11) = (l.drop (l.length - 15)).take 4 := by
    rw [pySlice_normal, h15, h11]
    congr 1
    omega
  have e3 : pySlice l (-11) (-7) = ((l.drop (l.length - 15)).drop 4).take 4 := by
    rw [pySlice_normal, h11, h7, List.drop_drop]
    congr 2 <;> omega
  have hlen8 : ((l.drop (l.length - 15)).take 8).length = 8 := by
    simp only [List.length_take, List.length_drop]
    omega
  rw [e1, unpackII, if_pos hlen8, e2, e3, List.take_take, List.drop_take]
  norm_num

/-- Concatenating the 16 KiB blocks (with enough fuel) restores the list. -/
theorem blocksAux_flatten (fuel : Nat) (l : List Nat) (h : l.length ≤ fuel) :
    (blocksAux fuel l).flatten = l := by
  induction fuel generalizing l with
  | zero =>
    have : l = [] := List.eq_nil_of_length_eq_zero (by omega)
    subst this
    rfl
  | succ n ih =>
    match l with
    | [] => rfl
    | x :: xs =>
      have hd : ((x :: xs).drop 16384).length ≤ n := by
        simp only [List.length_drop, List.length_cons] at *
        omega
      simp only [blocksAux, List.flatten_cons, ih _ hd, List.take_append_drop]

/-- Hashing the local file by streaming it in 16 KiB blocks hashes exactly
the whole file content. -/
theorem blocks16384_flatten (l : List Nat) : (blocks16384 l).flatten = l :=
  blocksAux_flatten _ _ le_rfl

/-- Identity decompressors, used to exercise the pipeline on concrete
frames whose compressed payload equals its decompressed form. -/
def idDecoders : Decoders :=
  ⟨fun _ payload => .ok payload, fun payload => .ok payload, fun d => .ok d⟩

/-- A concrete 21-byte VZ frame: magic, 4 filler bytes, 5 property bytes,
empty payload, zero checksum (CRC32 of the empty string) and zero size. -/
def vzFrameEx : List Nat :=
  [86, 90, 97, 0, 0, 0, 0, 0, 0, 0, 0, 0, 0, 0, 0, 0, 0, 0, 0, 0, 0]

/-- A concrete 23-byte VSZ frame: magic, 4 filler bytes, empty payload,
zero checksum and zero size, 7 trailing filler bytes. -/
def vszFrameEx : List Nat :=
  [86, 83, 90, 97, 0, 0, 0, 0, 0, 0, 0, 0, 0, 0, 0, 0, 0, 0, 0, 0, 0, 0, 0]

/-- Claim C1: for a well-formed frame with the 3-byte magic b"VZa" whose
embedded CRC32 is correct, decode decompresses data[12:-9] as raw LZMA1
using the filter properties data[7:12], reads the 4-byte little-endian
checksum from data[-10:-6] and the 4-byte little-endian decompressed size
from data[-6:-2], and returns exactly decompressed-size many bytes whose
CRC32 equals the stored checksum. -/
theorem vz_decode_correct (D : Decoders) (data out : List Nat)
    (checksum decompressed_size : Nat)
    (hmagic : pySlice data 0 3 = vzMagic)
    (hlen : 12 ≤ data.length)
    (hcs : le32 (pySlice data (-10) (-6)) = checksum)
    (hsz : le32 (pySlice data (-6) (-2)) = decompressed_size)
    (hdec : D.lzmaRaw (pySlice data 7 12) (pySlice data 12 (-9)) = .ok out)
    (hout : decompressed_size ≤ out.length)
    (hcrc : crc32 (out.take decompressed_size) = checksum) :
    decode D data = .ok (out.take decompressed_size) ∧
      (out.take decompressed_size).length = decompressed_size ∧
      crc32 (out.take decompressed_size) = checksum := by
  have hprops : ¬ (pySlice data 7 12).length ≠ 5 := by
    rw [props_slice_length]
    omega
  refine ⟨?_, ?_, hcrc⟩
  · rw [decode, if_pos hmagic, if_neg hprops, unpackII_vz data (by omega),
      hcs, hsz, hdec]
    simp [hcrc]
  · rw [List.length_take]
    omega

/-- Claim C1 witness: decoding the concrete VZ frame returns the empty
payload, of the declared size zero, with matching CRC32 zero. -/
theorem vz_decode_correct_witness :
    decode idDecoders vzFrameEx = .ok (List.take 0 ([] : List Nat)) ∧
      (List.take 0 ([] : List Nat)).length = 0 ∧
      crc32 (List.take 0 ([] : List Nat)) = 0 :=
  vz_decode_correct idDecoders vzFrameEx [] 0 0 (by decide) (by decide)
    (by decide) (by decide) rfl (by decide) (by decide)

/-- Claim C2: for a well-formed frame with the 4-byte magic b"VSZa" whose
embedded CRC32 is correct, decode decompresses data[8:-15] with the
zstandard decompressor, reads the 4-byte little-endian checksum from
data[-15:-11] and the 4-byte little-endian decompressed size from
data[-11:-7], truncates the output to the declared size, and returns bytes
whose CRC32 equals the stored checksum. -/
theorem vsz_decode_correct (D : Decoders) (data out : List Nat)
    (checksum decompressed_size : Nat)
    (hmagic : pySlice data 0 4 = vszMagic)
    (hlen : 15 ≤ data.length)
    (hcs : le32 (pySlice data (-15) (-11)) = checksum)
    (hsz : le32 (pySlice data (-11) (-7)) = decompressed_size)
    (hdec : D.zstd (pySlice data 8 (-15)) = .ok out)
    (hcrc : crc32 (out.take decompressed_size) = checksum) :
    decode D data = .ok (out.take decompressed_size) ∧
      crc32 (out.take decompressed_size) = checksum := by
  refine ⟨?_, hcrc⟩
  rw [decode, if_neg (vsz_not_vz hmagic), if_pos hmagic,
    unpackII_vsz data (by omega), hcs, hsz, hdec]
  simp [hcrc]

/-- Claim C2 witness: decoding the concrete VSZ frame returns the empty
payload truncated to the declared size zero, with matching CRC32 zero. -/
theorem vsz_decode_correct_witness :
    decode idDecoders vszFrameEx = .ok (List.take 0 ([] : List Nat)) ∧
      crc32 (List.take 0 ([] : List Nat)) = 0 :=
  vsz_decode_correct idDecoders vszFrameEx [] 0 0 (by decide) (by decide)
    (by decide) (by decide) rfl (by decide)

/-- Claim C3: a frame matching neither magic is handed whole to the generic
zip-archive reader and its first-entry bytes are returned unchanged, with no
checksum step. -/
theorem generic_decode (D : Decoders) (data : List Nat)
    (h3 : pySlice data 0 3 ≠ vzMagic) (h4 : pySlice data 0 4 ≠ vszMagic) :
    decode D data = D.zipFirstEntry data := by
  rw [decode, if_neg h3, if_neg h4]

/-- Claim C3 witness: a three-byte frame with no recognized magic is
returned by the zip reader unchanged. -/
theorem generic_decode_witness :
    decode idDecoders [1, 2, 3] = idDecoders.zipFirstEntry [1, 2, 3] :=
  generic_decode idDecoders [1, 2, 3] (by decide) (by decide)

/-- Claim C4: on the VZ and VSZ paths, once decompression has produced an
output, decode fails with the integrity error exactly when the CRC32 of the
truncated output differs from the checksum stored in the frame footer; the
failure is the returned error value and no retry exists inside decode. -/
theorem decode_integrity_iff (D : Decoders) (d1 d2 out1 out2 : List Nat)
    (cs1 ds1 cs2 ds2 : Nat)
    (h1m : pySlice d1 0 3 = vzMagic) (h1l : 12 ≤ d1.length)
    (h1cs : le32 (pySlice d1 (-10) (-6)) = cs1)
    (h1sz : le32 (pySlice d1 (-6) (-2)) = ds1)
    (h1dec : D.lzmaRaw (pySlice d1 7 12) (pySlice d1 12 (-9)) = .ok out1)
    (h2m : pySlice d2 0 4 = vszMagic) (h2l : 15 ≤ d2.length)
    (h2cs : le32 (pySlice d2 (-15) (-11)) = cs2)
    (h2sz : le32 (pySlice d2 (-11) (-7)) = ds2)
    (h2dec : D.zstd (pySlice d2 8 (-15)) = .ok out2) :
    (decode D d1 = .error vzCrcError ↔ crc32 (out1.take ds1) ≠ cs1) ∧
    (decode D d2 = .error vszCrcError ↔ crc32 (out2.take ds2) ≠ cs2) := by
  have hprops : ¬ (pySlice d1 7 12).length ≠ 5 := by
    rw [props_slice_length]
    omega
  constructor
  · rw [decode, if_pos h1m, if_neg hprops, unpackII_vz d1 (by omega),
      h1cs, h1sz, h1dec]
    by_cases hc : crc32 (out1.take ds1) = cs1
    · simp [hc]
    · simp [hc]
  · rw [decode, if_neg (vsz_not_vz h2m), if_pos h2m,
      unpackII_vsz d2 (by omega), h2cs, h2sz, h2dec]
    by_cases hc : crc32 (out2.take ds2) = cs2
    · simp [hc]
    · simp [hc]

/-- Claim C4 witness: on the two concrete frames whose CRC32 matches, the
equivalence instantiates to both sides false. -/
theorem decode_integrity_iff_witness :
    (decode idDecoders vzFrameEx = .error vzCrcError ↔
      crc32 (List.take 0 ([] : List Nat)) ≠ 0) ∧
    (decode idDecoders vszFrameEx = .error vszCrcError ↔
      crc32 (List.take 0 ([] : List Nat)) ≠ 0) :=
  decode_integrity_iff idDecoders vzFrameEx vszFrameEx [] [] 0 0 0 0
    (by decide) (by decide) (by decide) (by decide) rfl
    (by decide) (by decide) (by decide) (by decide) rfl

/-- Claim C9: a frame whose magic matches VZ but that is too short to carry
the filter properties and footer (fewer than 12 bytes), or whose magic
matches VSZ but is too short for its footer (fewer than 15 bytes), makes
decode fail with a structural error instead of returning a value. -/
theorem short_frame_error (D : Decoders) (d1 d2 : List Nat)
    (h1m : pySlice d1 0 3 = vzMagic) (h1l : d1.length < 12)
    (h2m : pySlice d2 0 4 = vszMagic) (h2l : d2.length < 15) :
    (∃ e, decode D d1 = .error e) ∧ (∃ e, decode D d2 = .error e) := by
  constructor
  · refine ⟨lzmaPropsError, ?_⟩
    have hprops : (pySlice d1 7 12).length ≠ 5 := by
      rw [props_slice_length]
      omega
    rw [decode, if_pos h1m, if_pos hprops]
  · refine ⟨"struct.error: unpack requires a buffer of 8 bytes", ?_⟩
    have hlen : (pySlice d2 (-15) (-7)).length ≠ 8 := by
      rw [pySlice_length, pyIdx_of_neg (by norm_num), pyIdx_of_neg (by norm_num)]
      omega
    have hu : unpackII (pySlice d2 (-15) (-7)) =
        .error "struct.error: unpack requires a buffer of 8 bytes" := by
      rw [unpackII, if_neg hlen]
    rw [decode, if_neg (vsz_not_vz h2m), if_pos h2m, hu]

/-- Claim C9 witness: the bare magic prefixes themselves are too short and
decode rejects both with an error. -/
theorem short_frame_error_witness :
    (∃ e, decode idDecoders [86, 90, 97] = .error e) ∧
    (∃ e, decode idDecoders [86, 83, 90, 97] = .error e) :=
  short_frame_error idDecoders [86, 90, 97] [86, 83, 90, 97]
    (by decide) (by decide) (by decide) (by decide)

/-- Claim C10: the chunk cache is written only after a successful decode. A
decode error propagates out of get_chunk and leaves the cache unchanged, so
a later call for the key fetches and decodes again; a success stores the
plaintext under (depot_id, chunk_id); and any call on a cached key returns
the identical cached bytes for every decoder and fetch function, hence
without fetching or decoding. -/
theorem get_chunk_cache (D : Decoders) (fetch : Nat → Nat → List Nat)
    (cache : ChunkCache) (depot_id chunk_id : Nat) :
    (∀ e, cache.lookup (depot_id, chunk_id) = none →
      decode D (fetch depot_id chunk_id) = .error e →
      get_chunk D fetch cache depot_id chunk_id = (.error e, cache)) ∧
    (∀ out, cache.lookup (depot_id, chunk_id) = none →
      decode D (fetch depot_id chunk_id) = .ok out →
      get_chunk D fetch cache depot_id chunk_id =
        (.ok out, ((depot_id, chunk_id), out) :: cache) ∧
      (((depot_id, chunk_id), out) :: cache).lookup (depot_id, chunk_id) =
        some out) ∧
    (∀ v, cache.lookup (depot_id, chunk_id) = some v →
      ∀ Dx fetchx, get_chunk Dx fetchx cache depot_id chunk_id =
        (.ok v, cache)) := by
  refine ⟨?_, ?_, ?_⟩
  · intro e hnone hdec
    simp only [get_chunk, hnone, hdec]
  · intro out hnone hdec
    refine ⟨by simp only [get_chunk, hnone, hdec], ?_⟩
    simp [List.lookup]
  · intro v hsome Dx fetchx
    simp only [get_chunk, hsome]

/-- Claim C10 witness: a first call on an empty cache decodes and stores the
chunk; a second call with a different fetch function returns the identical
cached bytes and leaves the cache as it was. -/
theorem get_chunk_cache_witness :
    get_chunk idDecoders (fun _ _ => [1, 2, 3]) [] 5 7 =
      (.ok [1, 2, 3], [((5, 7), [1, 2, 3])]) ∧
    get_chunk idDecoders (fun _ _ => [9]) [((5, 7), [1, 2, 3])] 5 7 =
      (.ok [1, 2, 3], [((5, 7), [1, 2, 3])]) :=
  ⟨((get_chunk_cache idDecoders (fun _ _ => [1, 2, 3]) [] 5 7).2.1
      [1, 2, 3] rfl rfl).1,
   (get_chunk_cache idDecoders (fun _ _ => [9]) [((5, 7), [1, 2, 3])] 5 7).2.2
      [1, 2, 3] rfl idDecoders (fun _ _ => [9])⟩

/-- The oversized pre-existing local file used to refute claim C5 as it is
stated: declared size 1, but 3 bytes already on disk. -/
def oversizedFile : DepotFile := ⟨"f", true, 1, [7], [1, 2, 3]⟩

/-- Claim C5 counterexample: with a pre-existing 3-byte local file for an
entry of declared size 1, the already-complete branch leaves the file
untouched; the per-file task completes without even recording a failure
(the streamed digest matches under this hash function), yet the on-disk
size 3 exceeds the declared size 1. -/
theorem save_oversized_counterexample :
    save_depot_file (fun c => c) oversizedFile (goodRead oversizedFile)
      (some [1, 2, 3]) = (some [1, 2, 3], false) ∧
    oversizedFile.size = 1 := by
  constructor
  · rfl
  · rfl

/-- Claim C5 amended: provided the handle serves content of exactly the
declared size and any pre-existing local file is no larger than the
declared size, the per-file task never leaves the on-disk size above the
declared size; and a file completed in one uninterrupted fresh write is
byte-identical to the content the manifest promises. -/
theorem save_size_invariant (hashFn : List Nat → List Nat) (df : DepotFile)
    (fs : Option (List Nat))
    (hlen : df.content.length = df.size)
    (hinit : ∀ c, fs = some c → c.length ≤ df.size) :
    (∀ r, (save_depot_file hashFn df (goodRead df) fs).1 = some r →
      r.length ≤ df.size) ∧
    (fs = none →
      save_depot_file hashFn df (goodRead df) fs =
        (some df.content, false)) := by
  constructor
  · intro r hr
    match fs with
    | none =>
      simp only [save_depot_file, goodRead, List.drop_zero,
        Option.some.injEq] at hr
      subst hr
      omega
    | some c =>
      have hc := hinit c rfl
      simp only [save_depot_file, goodRead] at hr
      by_cases hlt : c.length < df.size
      · rw [if_pos hlt] at hr
        simp only [Option.some.injEq] at hr
        subst hr
        simp only [List.length_append, List.length_drop]
        omega
      · rw [if_neg hlt] at hr
        split at hr <;> simp only [Option.some.injEq] at hr <;>
          (subst hr; omega)
  · intro h
    subst h
    simp [save_depot_file, goodRead]

/-- Claim C5 amended witness: a fresh uninterrupted write of a 2-byte entry
produces exactly the promised bytes and records no failure. -/
theorem save_size_invariant_witness :
    save_depot_file (fun c => c) ⟨"g", true, 2, [5, 6], [5, 6]⟩
      (goodRead ⟨"g", true, 2, [5, 6], [5, 6]⟩) none =
      (some [5, 6], false) :=
  (save_size_invariant (fun c => c) ⟨"g", true, 2, [5, 6], [5, 6]⟩ none rfl
    (fun c h => by cases h)).2 rfl

/-- Claim C6: on an existing local file of size N strictly below the
declared size whose bytes are the first N bytes of the true content, the
task seeks the handle to N (the read source is consulted at offset N),
appends exactly the remaining size - N bytes, completes the file to the
true content, and the whole-file hash of the result is the expected
content hash. -/
theorem resume_append_correct (hashFn : List Nat → List Nat)
    (df : DepotFile) (c : List Nat)
    (hlt : c.length < df.size)
    (hlen : df.content.length = df.size)
    (hpre : c = df.content.take c.length)
    (hhash : hashFn df.content = df.sha_content) :
    save_depot_file hashFn df (goodRead df) (some c) =
      (some df.content, false) ∧
    (goodRead df c.length).1.length = df.size - c.length ∧
    hashFn df.content = df.sha_content := by
  have key : c ++ df.content.drop c.length = df.content := by
    have h2 := List.take_append_drop c.length df.content
    rw [← hpre] at h2
    exact h2
  refine ⟨?_, ?_, hhash⟩
  · simp only [save_depot_file, goodRead, if_pos hlt, key]
  · simp only [goodRead, List.length_drop, hlen]

/-- Claim C6 witness: resuming a 2-byte entry from a matching 1-byte local
file appends the single missing byte and completes the file. -/
theorem resume_append_correct_witness :
    save_depot_file (fun c => c) ⟨"h", true, 2, [10, 20], [10, 20]⟩
      (goodRead ⟨"h", true, 2, [10, 20], [10, 20]⟩) (some [10]) =
      (some [10, 20], false) :=
  (resume_append_correct (fun c => c) ⟨"h", true, 2, [10, 20], [10, 20]⟩
    [10] (by decide) (by decide) (by decide) (by decide)).1

/-- Claim C7: materializing the same entry twice against the same
destination: the first run writes the file fresh; the second run finds it
already complete, performs no write and consults no read source, recomputes
the whole-file hash by streaming the local bytes in 16 KiB blocks, and
records no failure since the digest matches the expected content hash. -/
theorem idempotent_rerun (hashFn : List Nat → List Nat) (df : DepotFile)
    (rd2 : ReadSource)
    (hlen : df.content.length = df.size)
    (hhash : hashFn df.content = df.sha_content) :
    (save_depot_file hashFn df (goodRead df) none).1 = some df.content ∧
    save_depot_file hashFn df rd2
        (save_depot_file hashFn df (goodRead df) none).1 =
      (some df.content, false) := by
  have h1 : (save_depot_file hashFn df (goodRead df) none).1 =
      some df.content := by
    simp [save_depot_file, goodRead]
  refine ⟨h1, ?_⟩
  rw [h1]
  simp only [save_depot_file]
  rw [if_neg (by omega), blocks16384_flatten]
  simp [hhash]

/-- Claim C7 witness: the second run over a freshly written 1-byte file
leaves it untouched and reports no failure, even under a read source that
would raise if consulted. -/
theorem idempotent_rerun_witness :
    save_depot_file (fun c => c) ⟨"k", true, 1, [9], [9]⟩
        (fun _ => ([], true))
        (save_depot_file (fun c => c) ⟨"k", true, 1, [9], [9]⟩
          (goodRead ⟨"k", true, 1, [9], [9]⟩) none).1 =
      (some [9], false) :=
  (idempotent_rerun (fun c => c) ⟨"k", true, 1, [9], [9]⟩
    (fun _ => ([], true)) rfl rfl).2

/-- Claim C8: download_files runs every scheduled is_file task to
completion: the final file states are exactly the per-task results of
save_depot_file, each depending only on its own task, so a failure in one
task never aborts or alters a sibling; the errors list names exactly the
files whose task recorded a failure; and the run is reported a success
exactly when the errors list is empty. -/
theorem download_files_report (hashFn : List Nat → List Nat)
    (ts : List DownloadTask) :
    (download_files hashFn ts).1 =
      (ts.filter (fun t => t.file.is_file)).map
        (fun t => (save_depot_file hashFn t.file t.rd t.fs).1) ∧
    (download_files hashFn ts).2 =
      ((ts.filter (fun t => t.file.is_file)).filter
          (fun t => (save_depot_file hashFn t.file t.rd t.fs).2)).map
        (fun t => t.file.filename) ∧
    (reportSuccess (download_files hashFn ts).2 = true ↔
      (download_files hashFn ts).2 = []) := by
  have main : (download_files hashFn ts).1 =
      (ts.filter (fun t => t.file.is_file)).map
        (fun t => (save_depot_file hashFn t.file t.rd t.fs).1) ∧
      (download_files hashFn ts).2 =
      ((ts.filter (fun t => t.file.is_file)).filter
          (fun t => (save_depot_file hashFn t.file t.rd t.fs).2)).map
        (fun t => t.file.filename) := by
    induction ts with
    | nil => exact ⟨rfl, rfl⟩
    | cons t ts ih =>
      by_cases hf : t.file.is_file = true
      · by_cases he : (save_depot_file hashFn t.file t.rd t.fs).2 = true
        · simp [download_files, hf, he, List.filter_cons, ih.1, ih.2]
        · simp [download_files, hf, he, List.filter_cons, ih.1, ih.2]
      · simp [download_files, hf, List.filter_cons, ih.1, ih.2]
  refine ⟨main.1, main.2, ?_⟩
  simp [reportSuccess, List.isEmpty_iff]

end MyCDN
